import Mathlib

/-!
Verification of the work-together orchestration core.

This file gives a shallow embedding, in Lean 4, of the orchestration core of
the work-together CLI (JavaScript), and proves or refutes the behavioural
claims made about it.  The embedded functions are translated from:

  * src/agents/registry.js   (AgentRegistry: initializeSelected, runGeneratePlans,
                              runNegotiation, executeAssignments,
                              determineRecipientsForMessage)
  * src/coordinator.js       (Coordinator: initializeSession, assignRoles,
                              buildAssignments, sanitiseForPath,
                              buildAgentFolderName, submitVariantSelection,
                              autoSelectVariant)
  * src/agents/base-agent.js (BaseAgent.receiveTeamMessage, MAX_TEAM_MESSAGES)
  * src/message-bus.js       (createMessageBus, which delegates to Node's
                              EventEmitter for listener dispatch)

JavaScript strings are modelled by Lean `String`; the ASCII-only helpers
`jsTrim` and `jsToLower` model String.prototype.trim / toLowerCase (all
identifiers involved are ASCII).  JavaScript `x || d` on strings is modelled
by `jsOr` (empty string is falsy).  A promise that fulfils with `a` or rejects
with message `m` is modelled by `Except String a`.  `Promise.allSettled` is
modelled explicitly: each in-flight call settles at some point of an arbitrary
completion schedule, and the results array is indexed by input position, so
the aggregated order is provably independent of the completion order.
-/

namespace WorkTogether

/-- Models JavaScript `value || fallback` for strings: the empty string is
falsy, every other string is truthy. -/
def jsOr (value fallback : String) : String :=
  if value = "" then fallback else value

/-- ASCII whitespace test used by `jsTrim` (space, tab, LF, CR). -/
def isWsChar (c : Char) : Bool :=
  c = ' ' || c = '\t' || c = '\n' || c = '\r'

/-- Models JavaScript `String.prototype.trim` for ASCII strings: drop
whitespace from both ends. -/
def jsTrim (s : String) : String :=
  ⟨((s.data.dropWhile isWsChar).reverse.dropWhile isWsChar).reverse⟩

/-- Lower-case one ASCII character (models the effect of
`String.prototype.toLowerCase` on the ASCII identifiers the program uses). -/
def lowerChar (c : Char) : Char :=
  if 'A' ≤ c ∧ c ≤ 'Z' then Char.ofNat (c.toNat + 32) else c

/-- Models JavaScript `String.prototype.toLowerCase` for ASCII strings. -/
def jsToLower (s : String) : String :=
  ⟨s.data.map lowerChar⟩

/-- Prefix test on character lists (used to model substring search). -/
def listIsPre : List Char → List Char → Bool
  | [], _ => true
  | _ :: _, [] => false
  | a :: as, b :: bs => a == b && listIsPre as bs

/-- Auxiliary substring search on character lists. -/
def containsSubAux (pat : List Char) : List Char → Bool
  | [] => listIsPre pat []
  | c :: rest => listIsPre pat (c :: rest) || containsSubAux pat rest

/-- Models JavaScript `String.prototype.includes(pat)` (and a literal regex
test): does `hay` contain `pat` as a contiguous substring? -/
def containsSub (hay pat : String) : Bool :=
  containsSubAux pat.data hay.data

/-! ## BaseAgent.receiveTeamMessage (src/agents/base-agent.js)

```js
const MAX_TEAM_MESSAGES = 10;
receiveTeamMessage(message) {
  if (!message) return;
  this.teamMessages.push(message);
  if (this.teamMessages.length > MAX_TEAM_MESSAGES) {
    this.teamMessages = this.teamMessages.slice(-MAX_TEAM_MESSAGES);
  }
}
```
A team message payload is never null on this path, so the `!message` guard is
modelled away by taking messages from an arbitrary nonempty-value type. -/

def MAX_TEAM_MESSAGES : Nat := 10

/-- One `receiveTeamMessage` call: push the message, then keep only the last
`MAX_TEAM_MESSAGES` entries (JavaScript `Array.prototype.slice(-10)`). -/
def receiveTeamMessage {α : Type} (teamMessages : List α) (message : α) : List α :=
  let pushed := teamMessages ++ [message]
  if pushed.length > MAX_TEAM_MESSAGES then
    pushed.drop (pushed.length - MAX_TEAM_MESSAGES)
  else
    pushed

/-- The buffer an agent holds after receiving `msgs` in order, starting from
the empty buffer set up by the `BaseAgent` constructor. -/
def teamBufferAfter {α : Type} (msgs : List α) : List α :=
  msgs.foldl receiveTeamMessage []

/-! ## createMessageBus (src/message-bus.js)

`createMessageBus` subscribes and emits through Node's `EventEmitter`.
`emitter.emit(event, payload)` invokes the listeners registered for `event`
synchronously, in registration order; a listener that throws makes `emit`
itself throw, and the remaining listeners are not invoked.  A listener's
behaviour when invoked is summarised by an `Except String Unit` outcome
(`.ok` = returns, `.error m` = throws `m`). -/

/-- Models one `emitter.emit` call over the listeners registered for one
event kind: returns how many listeners were invoked and the exception that
escaped the emit, if any. -/
def nodeEmit : List (Except String Unit) → Nat × Option String
  | [] => (0, none)
  | .ok _ :: rest =>
      let r := nodeEmit rest
      (r.1 + 1, r.2)
  | .error e :: _ => (1, some e)

/-! ## Worker handles

A `roleProfile` as passed to the `BaseAgent` constructor; `reviewPriority`
is `none` when the JavaScript value is not a number (the constructor then
defaults it to `0`). -/

structure RoleProfile where
  primary : String
  secondary : String
  reviewPreferred : Bool
  reviewPriority : Option Int
  deriving DecidableEq

/-- A worker handle held by the `AgentRegistry`: its stable `id`, display
`name`, the `available` flag maintained by `checkAvailability`, and its role
profile. -/
structure Agent where
  id : String
  name : String
  available : Bool
  roleProfile : RoleProfile
  deriving DecidableEq

/-! ## Promise.allSettled

`Promise.allSettled(promises)` resolves, once every promise has settled,
with an array of outcomes indexed by input position.  We model the event
loop explicitly: the calls settle following an arbitrary `completion`
schedule (a list of input indices in settle order); each settling writes its
outcome into its own slot.  `allSettled` yields a value only when every slot
has been filled, i.e. when the schedule covers every index. -/

/-- One settle step: the call at input index `i` settles and stores its
outcome into slot `i` (indices outside the input range are ignored). -/
def settleUpd {α : Type} (outcomes : List α) (acc : List (Option α)) (i : Nat) :
    List (Option α) :=
  match outcomes[i]? with
  | some v => acc.set i (some v)
  | none => acc

/-- The slot array after the whole `completion` schedule has run. -/
def settleSlots {α : Type} (outcomes : List α) (completion : List Nat) :
    List (Option α) :=
  completion.foldl (settleUpd outcomes) (List.replicate outcomes.length none)

/-- Reads the final slot array; `some` exactly when every call has settled. -/
def collectSettled {α : Type} : List (Option α) → Option (List α)
  | [] => some []
  | none :: _ => none
  | some v :: rest => (collectSettled rest).map (fun tail => v :: tail)

/-- Models `Promise.allSettled` of the calls with the given per-call
outcomes, under the given completion schedule. -/
def allSettled {α : Type} (outcomes : List α) (completion : List Nat) :
    Option (List α) :=
  collectSettled (settleSlots outcomes completion)

/-! ## AgentRegistry fan-out (src/agents/registry.js)

`runGeneratePlans`, `runNegotiation` and `executeAssignments` all follow the
same shape: `Promise.allSettled` over one capability call per active agent,
then a map over the settled results that keeps a fulfilled value and replaces
a rejection by a synthetic fallback entry built from
`this.activeAgents[index]`. -/

structure PlanEntry where
  agentId : String
  agentName : String
  plan : String
  deriving DecidableEq

structure AllocationEntry where
  agentId : String
  allocation : String
  deriving DecidableEq

structure TranscriptEntry where
  agentId : String
  transcript : String
  deriving DecidableEq

/-- Models `this.activeAgents[index]?.id || 'unknown'`. -/
def fallbackAgentId (activeAgents : List Agent) (index : Nat) : String :=
  match activeAgents[index]? with
  | some agent => jsOr agent.id "unknown"
  | none => "unknown"

/-- Models `this.activeAgents[index]?.name || agentId`. -/
def fallbackAgentName (activeAgents : List Agent) (index : Nat) : String :=
  match activeAgents[index]? with
  | some agent => jsOr agent.name (fallbackAgentId activeAgents index)
  | none => fallbackAgentId activeAgents index

/-- `AgentRegistry.runGeneratePlans`: one `generatePlan` call per active
agent; a rejected call contributes a `Plan generation failed: <message>`
fallback entry instead of aborting the batch. -/
def runGeneratePlans (activeAgents : List Agent)
    (generatePlan : Agent → Except String String) (completion : List Nat) :
    Option (List PlanEntry) :=
  (allSettled
      (activeAgents.map (fun agent =>
        (generatePlan agent).map (fun plan => PlanEntry.mk agent.id agent.name plan)))
      completion).map
    (fun results => results.mapIdx (fun index result =>
      match result with
      | .ok value => value
      | .error reason =>
          PlanEntry.mk (fallbackAgentId activeAgents index)
            (fallbackAgentName activeAgents index)
            ("Plan generation failed: " ++ reason)))

/-- `AgentRegistry.runNegotiation`: one `negotiateResponsibilities` call per
active agent; a rejected call contributes `Allocation failed: <message>`. -/
def runNegotiation (activeAgents : List Agent)
    (negotiateResponsibilities : Agent → Except String String)
    (completion : List Nat) : Option (List AllocationEntry) :=
  (allSettled
      (activeAgents.map (fun agent =>
        (negotiateResponsibilities agent).map
          (fun allocation => AllocationEntry.mk agent.id allocation)))
      completion).map
    (fun results => results.mapIdx (fun index result =>
      match result with
      | .ok value => value
      | .error reason =>
          AllocationEntry.mk (fallbackAgentId activeAgents index)
            ("Allocation failed: " ++ reason)))

/-- `AgentRegistry.executeAssignments`: one `executeTasks` call per active
agent, passing `assignments[agent.id] || ''`; a rejected call contributes
`Execution failed: <message>`. -/
def executeAssignments (activeAgents : List Agent)
    (assignments : List (String × String))
    (executeTasks : Agent → String → Except String String)
    (completion : List Nat) : Option (List TranscriptEntry) :=
  (allSettled
      (activeAgents.map (fun agent =>
        (executeTasks agent (jsOr ((assignments.lookup agent.id).getD "") "")).map
          (fun transcript => TranscriptEntry.mk agent.id transcript)))
      completion).map
    (fun results => results.mapIdx (fun index result =>
      match result with
      | .ok value => value
      | .error reason =>
          TranscriptEntry.mk (fallbackAgentId activeAgents index)
            ("Execution failed: " ++ reason)))

/-- The per-agent entry `runGeneratePlans` is expected to produce, written
without reference to any completion schedule. -/
def expectedPlanEntry (generatePlan : Agent → Except String String)
    (agent : Agent) : PlanEntry :=
  match generatePlan agent with
  | .ok plan => PlanEntry.mk agent.id agent.name plan
  | .error reason =>
      PlanEntry.mk (jsOr agent.id "unknown")
        (jsOr agent.name (jsOr agent.id "unknown"))
        ("Plan generation failed: " ++ reason)

/-- The per-agent entry `runNegotiation` is expected to produce. -/
def expectedAllocationEntry (negotiateResponsibilities : Agent → Except String String)
    (agent : Agent) : AllocationEntry :=
  match negotiateResponsibilities agent with
  | .ok allocation => AllocationEntry.mk agent.id allocation
  | .error reason =>
      AllocationEntry.mk (jsOr agent.id "unknown") ("Allocation failed: " ++ reason)

/-- The per-agent entry `executeAssignments` is expected to produce. -/
def expectedTranscriptEntry (assignments : List (String × String))
    (executeTasks : Agent → String → Except String String)
    (agent : Agent) : TranscriptEntry :=
  match executeTasks agent (jsOr ((assignments.lookup agent.id).getD "") "") with
  | .ok transcript => TranscriptEntry.mk agent.id transcript
  | .error reason =>
      TranscriptEntry.mk (jsOr agent.id "unknown") ("Execution failed: " ++ reason)

/-! ## AgentRegistry.initializeSelected and Coordinator.initializeSession -/

structure InitFailure where
  agentId : String
  error : String
  deriving DecidableEq

/-- The registry agents whose id is among the requested ids
(`this.agents.filter((agent) => selectionSet.has(agent.id))`). -/
def requestedAgents (agents : List Agent) (agentIds : List String) : List Agent :=
  agents.filter (fun agent => agentIds.contains agent.id)

/-- The agents `initializeSelected` attempts to initialize: the registry
agents whose id is among the requested ids, plus — when the
`enableWebSearchAgent` setting is not `false` — the `web-search` agent,
provided it exists, was not already selected, and its `available` flag is
not `false`. -/
def selectedForInit (agents : List Agent) (agentIds : List String)
    (enableWebSearchAgent : Bool) : List Agent :=
  let selected := requestedAgents agents agentIds
  if enableWebSearchAgent then
    match agents.find? (fun agent => agent.id == "web-search") with
    | some searchAgent =>
        if !(agentIds.contains "web-search") && searchAgent.available then
          selected ++ [searchAgent]
        else selected
    | none => selected
  else selected

/-- Did this agent's `initialize` call fulfil? -/
def initOk (initCall : Agent → Except String Unit) (agent : Agent) : Bool :=
  match initCall agent with
  | .ok _ => true
  | .error _ => false

/-- The failure records of the rejected initializations, in input order. -/
def initFailuresOf (initCall : Agent → Except String Unit)
    (selected : List Agent) : List InitFailure :=
  selected.filterMap (fun agent =>
    match initCall agent with
    | .ok _ => none
    | .error e => some (InitFailure.mk agent.id e))

/-- `AgentRegistry.initializeSelected`: initialize every selected agent
(`Promise.allSettled`, whose result order is the input order — see
`allSettled_of_complete`); the fulfilled ones become `activeAgents`, the
rejected ones are recorded as failures with their rejection reason. -/
def initializeSelected (agents : List Agent) (agentIds : List String)
    (enableWebSearchAgent : Bool) (initCall : Agent → Except String Unit) :
    List Agent × List InitFailure :=
  let selected := selectedForInit agents agentIds enableWebSearchAgent
  (selected.filter (initOk initCall), initFailuresOf initCall selected)

/-- The part of the session record built by `initializeSession` that the
claims are about: the per-agent `(id, name)` list and the failures list. -/
structure SessionInit where
  agents : List (String × String)
  failures : List InitFailure
  deriving DecidableEq

def joinFailureDetails (failures : List InitFailure) : String :=
  String.intercalate "; " (failures.map (fun f => f.agentId ++ ": " ++ f.error))

/-- `Coordinator.initializeSession`: throws when no agent was requested,
throws when zero attempted agents initialized successfully, and otherwise
builds the session from the active agents and the failures. -/
def initializeSession (agents : List Agent) (agentSelections : List String)
    (enableWebSearchAgent : Bool) (initCall : Agent → Except String Unit) :
    Except String SessionInit :=
  if agentSelections.isEmpty then
    Except.error "At least one agent must be selected."
  else
    let r := initializeSelected agents agentSelections enableWebSearchAgent initCall
    if r.1.length = 0 then
      Except.error
        ("Selected agents failed to initialise. Check SDK setup and API keys. Details: "
          ++ joinFailureDetails r.2)
    else
      Except.ok (SessionInit.mk (r.1.map (fun a => (a.id, a.name))) r.2)

/-! ## AgentRegistry.determineRecipientsForMessage -/

/-- A team message as seen by the registry; the JS fields `from` and `to`
are called `fromId` and `toTarget` here because `from` and `to` are reserved
words in Lean. -/
structure TeamMessage where
  fromId : String
  scope : Option String
  toTarget : Option String
  deriving DecidableEq

/-- JavaScript truthiness of an optional string (`null`/`undefined` and the
empty string are falsy). -/
def jsTruthyOpt (o : Option String) : Bool :=
  match o with
  | some s => s != ""
  | none => false

/-- The registry's local `resolveTarget`: `null` for a falsy target,
otherwise the first of the `others` whose id or name equals the target
exactly (`===`). -/
def resolveTarget (others : List Agent) (targetId : Option String) : Option Agent :=
  match targetId with
  | none => none
  | some t =>
      if t == "" then none
      else others.find? (fun agent => agent.id == t || agent.name == t)

/-- The active agents other than the sender
(`this.activeAgents.filter((agent) => agent.id !== message.from)`). -/
def othersOf (activeAgents : List Agent) (fromId : String) : List Agent :=
  activeAgents.filter (fun agent => agent.id != fromId)

/-- `AgentRegistry.determineRecipientsForMessage`. -/
def determineRecipientsForMessage (activeAgents : List Agent)
    (message : TeamMessage) : List Agent :=
  let others := othersOf activeAgents message.fromId
  if others.length = 0 then []
  else if others.length = 1 then others
  else
    let scope := jsToLower (jsOr (message.scope.getD "") "auto")
    if scope == "direct" || (scope == "auto" && jsTruthyOpt message.toTarget) then
      match resolveTarget others message.toTarget with
      | some target => [target]
      | none => others
    else if scope == "group" then others
    else others

/-! ## Variant selection (src/coordinator.js) -/

/-- One entry of `session.variant.results` (only the fields the selection
logic reads; the empty string models a `null` `projectDir`). -/
structure VariantResult where
  agentId : String
  agentName : String
  projectDir : String
  deriving DecidableEq

/-- One option of a pending manual selection, as built by
`awaitManualVariantSelection`. -/
structure SelectionOption where
  agentId : String
  agentName : String
  index : Nat
  projectDir : String
  deriving DecidableEq

/-- The option list built by `awaitManualVariantSelection` from the variant
results: 1-based indices, in execution order. -/
def buildSelectionOptions (results : List VariantResult) : List SelectionOption :=
  results.mapIdx (fun index entry =>
    SelectionOption.mk entry.agentId (jsOr entry.agentName entry.agentId)
      (index + 1) (jsOr entry.projectDir "unknown project directory"))

/-- The `pendingVariantSelection` slot (its `resolve` continuation is
modelled by the `Resolution` value returned from `submitVariantSelection`). -/
structure PendingSelection where
  requestId : String
  options : List SelectionOption
  deriving DecidableEq

/-- The value passed to the pending promise's `resolve` continuation. -/
inductive Resolution where
  | auto : Resolution
  | manual : String → String → Resolution
  deriving DecidableEq

/-- The match predicate of `submitVariantSelection`: a normalised (trimmed,
lower-cased) input value matches an option by lower-cased agent id,
lower-cased agent name, or decimal index (`String(option.index)`). -/
def optionMatches (normalised : String) (option : SelectionOption) : Bool :=
  jsToLower option.agentId == normalised ||
    jsToLower option.agentName == normalised ||
    toString option.index == normalised

/-- The object returned by `submitVariantSelection`. -/
structure SubmitResult where
  success : Bool
  mode : Option String
  agentId : Option String
  message : Option String
  error : Option String
  deriving DecidableEq

/-- `Coordinator.submitVariantSelection(requestId, rawValue)`: returns the
result object, the new `pendingVariantSelection` slot, and the value handed
to the pending continuation (if it was resolved). -/
def submitVariantSelection (pendingVariantSelection : Option PendingSelection)
    (requestId rawValue : String) :
    SubmitResult × Option PendingSelection × Option Resolution :=
  match pendingVariantSelection with
  | none =>
      (SubmitResult.mk false none none none (some "No active variant selection request."),
       none, none)
  | some pending =>
      if pending.requestId != requestId then
        (SubmitResult.mk false none none none (some "No active variant selection request."),
         some pending, none)
      else
        let value := jsTrim rawValue
        if value = "" then
          (SubmitResult.mk false none none none (some "Please enter a selection."),
           some pending, none)
        else
          let normalised := jsToLower value
          if normalised = "auto" then
            (SubmitResult.mk true (some "auto") none
              (some "Delegated to automatic selection.") none,
             none, some Resolution.auto)
          else
            match pending.options.find? (optionMatches normalised) with
            | none =>
                (SubmitResult.mk false none none none
                  (some ("Unrecognised selection \"" ++ value
                    ++ "\". Choose by number, agent id, agent name, or \"auto\".")),
                 some pending, none)
            | some m =>
                (SubmitResult.mk true (some "manual") (some m.agentId)
                  (some ("Selected variant from " ++ m.agentName ++ ".")) none,
                 none,
                 some (Resolution.manual m.agentId ("User selected " ++ m.agentName ++ ".")))

/-- The selection stored on the session. -/
structure Selection where
  agentId : String
  mode : String
  rationale : String
  deriving DecidableEq

/-- `Coordinator.autoSelectVariant`: prefer the review agent's result, else
the first result; `none` models the throw on an empty result list.
`label` stands for `this.formatAgentLabel`. -/
def autoSelectVariant (results : List VariantResult)
    (reviewAgentId : Option String) (label : String → String) : Option Selection :=
  match results with
  | [] => none
  | first :: _ =>
      let fallbackSel :=
        Selection.mk first.agentId "auto"
          ("Used first available result (" ++ label first.agentId ++ ").")
      if jsTruthyOpt reviewAgentId then
        match results.find? (fun entry => entry.agentId == reviewAgentId.getD "") with
        | some preferred =>
            some (Selection.mk preferred.agentId "auto"
              ("Defaulted to review agent " ++ label (reviewAgentId.getD "") ++ "."))
        | none => some fallbackSel
      else some fallbackSel

/-- The tail of `Coordinator.resolveVariantSelection` after the manual wait
returns: a manual resolution that matches a result is kept, anything else
falls back to the automatic strategy. -/
def applyManualResolution (results : List VariantResult)
    (reviewAgentId : Option String) (label : String → String) :
    Option Resolution → Option Selection
  | some (Resolution.manual agentId note) =>
      (match results.find? (fun entry => entry.agentId == agentId) with
       | some chosen =>
           some (Selection.mk chosen.agentId "manual"
             (jsOr note "Chosen by user during variant selection."))
       | none => autoSelectVariant results reviewAgentId label)
  | some Resolution.auto => autoSelectVariant results reviewAgentId label
  | none => autoSelectVariant results reviewAgentId label

/-! ## Coordinator.assignRoles -/

/-- One entry of `session.agents` after role assignment. -/
structure RoleEntry where
  id : String
  name : String
  rolePrimary : String
  roleSecondary : String
  reviewPreferred : Bool
  reviewPriority : Int
  isReviewAgent : Bool
  deriving DecidableEq

/-- The per-agent entry built inside `assignRoles` (before the review flag
is set): `primary` and `secondary` default via `||`, `reviewPreferred` via
`Boolean(...)`, and a non-number `reviewPriority` defaults to `0`. -/
def mkRoleEntry (agent : Agent) : RoleEntry :=
  RoleEntry.mk agent.id agent.name
    (jsOr agent.roleProfile.primary "Generalist contributor")
    (jsOr agent.roleProfile.secondary "")
    agent.roleProfile.reviewPreferred
    (agent.roleProfile.reviewPriority.getD 0)
    false

/-- The review priority of an entry.  The source writes
`entry.reviewPreferred ? (entry.reviewPriority ?? 1) + 10 : entry.reviewPriority ?? 0`;
`entry.reviewPriority` is always a number at this point (see `mkRoleEntry`),
so both `??` fallbacks are inert. -/
def rolePriority (entry : RoleEntry) : Int :=
  if entry.reviewPreferred then entry.reviewPriority + 10 else entry.reviewPriority

/-- One step of the review-owner scan.  The accumulator is
`(reviewAgentId, bestPriority)`; `bestPriority = none` models the initial
`-Infinity`, against which every priority compares strictly greater. -/
def pickStep (acc : Option String × Option Int) (entry : RoleEntry) :
    Option String × Option Int :=
  match acc.2 with
  | none => (some entry.id, some (rolePriority entry))
  | some bestPriority =>
      if rolePriority entry > bestPriority then
        (some entry.id, some (rolePriority entry))
      else acc

/-- The same scan once the accumulator has left its initial `-Infinity`
state (used to reason about `pickStep` by induction). -/
def pickAcc (acc : String × Int) (entry : RoleEntry) : String × Int :=
  if rolePriority entry > acc.2 then (entry.id, rolePriority entry) else acc

/-- `Coordinator.assignRoles` over the active agents: returns the enriched
`session.agents` entries and `session.reviewAgentId`. -/
def assignRoles (activeAgents : List Agent) : List RoleEntry × Option String :=
  let agentsWithRoles := activeAgents.map mkRoleEntry
  let picked := agentsWithRoles.foldl pickStep (none, none)
  let reviewAgentId :=
    match picked.1 with
    | some rid => some rid
    | none => agentsWithRoles.getLast?.map RoleEntry.id
  (agentsWithRoles.map (fun entry =>
      { entry with isReviewAgent := some entry.id == reviewAgentId }),
   reviewAgentId)

/-! ## Variant workspace naming (src/coordinator.js) -/

/-- Lower-case ASCII letter or digit (the character class `[a-z0-9]` of
`sanitiseForPath`, applied after lower-casing). -/
def isAsciiAlnumLower (c : Char) : Bool :=
  ('a' ≤ c && c ≤ 'z') || ('0' ≤ c && c ≤ '9')

/-- `replace(/[^a-z0-9]+/g, '-')`: every maximal run of characters outside
`[a-z0-9]` becomes a single hyphen.  The `prevRun` flag records whether the
previous character was part of such a run. -/
def collapseNonAlnum : List Char → Bool → List Char
  | [], _ => []
  | c :: rest, prevRun =>
      if isAsciiAlnumLower c then c :: collapseNonAlnum rest false
      else if prevRun then collapseNonAlnum rest true
      else '-' :: collapseNonAlnum rest true

/-- `Coordinator.sanitiseForPath(value, fallback)`.  The source also applies
`normalize('NFKD')` after lower-casing; NFKD is the identity on the ASCII
worker names and slugs this program produces, and is modelled as such. -/
def sanitiseForPath (value : String) (fallback : String) : String :=
  if value = "" then fallback
  else
    let lowered := (jsToLower value).data
    let replaced := collapseNonAlnum lowered false
    let noLead := replaced.dropWhile (fun c => c == '-')
    let noTrail := (noLead.reverse.dropWhile (fun c => c == '-')).reverse
    let cleaned : String := ⟨noTrail.take 48⟩
    if cleaned = "" then fallback else cleaned

/-- `Coordinator.buildAgentFolderName(agentName, projectSlug)`. -/
def buildAgentFolderName (agentName projectSlug : String) : String :=
  sanitiseForPath agentName "agent" ++ "-" ++ projectSlug

/-- Splits a character list on whitespace, dropping empty fragments: models
`.trim().split(/\s+/).filter(Boolean)`. -/
def splitWsAux : List Char → List Char → List (List Char)
  | [], cur => if cur.isEmpty then [] else [cur.reverse]
  | c :: rest, cur =>
      if isWsChar c then
        if cur.isEmpty then splitWsAux rest []
        else cur.reverse :: splitWsAux rest []
      else splitWsAux rest (c :: cur)

/-- `Coordinator.deriveVariantProjectSlug` applied to the session prompt:
lower-case, keep only `[a-z0-9]` and whitespace, take the first four
whitespace-separated words joined by hyphens, then sanitise with fallback
`project`.  (The source replaces each run of excluded characters by one
space; since the result is immediately split on whitespace runs and empty
fragments are dropped, replacing per character is equivalent.) -/
def deriveVariantProjectSlug (userPrompt : String) : String :=
  let lowered := (jsToLower userPrompt).data
  let spaced := lowered.map (fun c => if isAsciiAlnumLower c || isWsChar c then c else ' ')
  let words := splitWsAux spaced []
  let core := String.intercalate "-" ((words.take 4).map (fun w => (⟨w⟩ : String)))
  sanitiseForPath core "project"

/-! ## Coordinator.buildAssignments -/

/-- Models `/No allocation provided/i.test(text)`: a case-insensitive
substring test for the literal pattern. -/
def noAllocRegexTest (text : String) : Bool :=
  containsSub (jsToLower text) "no allocation provided"

def reviewResponsibilitiesText : String :=
  "\n\nReview Responsibilities: After the other agents announce completion, review the full deliverable. Read all modified files, run necessary checks, and send TEAM_MSG[GROUP] summarizing findings. If issues remain, send targeted TEAM_MSG[TO <agent>] with remediation requests before user hand-off."

def completionProtocolText (reviewAgentId reviewLabel : String) : String :=
  "\n\nCompletion Protocol: When your deliverables are done, send TEAM_MSG[TO "
    ++ reviewAgentId ++ "] to notify the review agent (" ++ reviewLabel
    ++ "). Provide a brief summary of what you completed and any areas needing special attention."

/-- `this.session.roles[agentId] || {}`, then `.rolePrimary` (undefined is
falsy, modelled by the empty string). -/
def roleFieldPrimary (roles : List (String × RoleEntry)) (agentId : String) : String :=
  match roles.lookup agentId with
  | some role => role.rolePrimary
  | none => ""

def roleFieldSecondary (roles : List (String × RoleEntry)) (agentId : String) : String :=
  match roles.lookup agentId with
  | some role => role.roleSecondary
  | none => ""

def roleFieldIsReview (roles : List (String × RoleEntry)) (agentId : String) : Bool :=
  match roles.lookup agentId with
  | some role => role.isReviewAgent
  | none => false

/-- `lines.join(sep)` for newline-joined text. -/
def joinLines : List String → String
  | [] => ""
  | [line] => line
  | line :: rest => line ++ "\n" ++ joinLines rest

/-- The default assignment synthesized from a role profile when the
allocation text is missing. -/
def synthesizedAssignment (rolePrimary roleSecondary : String) : String :=
  joinLines
    (["Primary objectives:"] ++
      (if rolePrimary != "" then
        ["- Deliver on " ++ rolePrimary ++ " aligned with the user request."]
       else ["- Deliver meaningful progress aligned with the user request."]) ++
      (if roleSecondary != "" then ["- Secondary: " ++ roleSecondary ++ "."] else []))

/-- The base text per agent: the trimmed allocation when it is a nonempty
string, else the `No allocation provided.` placeholder. -/
def buildAssignmentBase (allocation : String) : String :=
  if jsTrim allocation != "" then jsTrim allocation else "No allocation provided."

/-- The second half of the `Object.keys(assignments).forEach` loop body of
`Coordinator.buildAssignments`: append the role-focus lines and the
review-owner reference to the (possibly synthesized) base text. -/
def appendRoleAndReview (roles : List (String × RoleEntry))
    (reviewAgentId : Option String) (reviewLabel : String)
    (agentId : String) (text1 : String) : String :=
  let rolePrimary := roleFieldPrimary roles agentId
  let roleSecondary := roleFieldSecondary roles agentId
  let text2 :=
    if rolePrimary != "" && !(containsSub text1 "Role Focus") then
      text1 ++ "\n\nRole Focus: " ++ rolePrimary ++ "."
    else text1
  let text3 :=
    if roleSecondary != "" && !(containsSub text2 "Secondary Focus") then
      text2 ++ "\nSecondary Focus: " ++ roleSecondary ++ "."
    else text2
  if roleFieldIsReview roles agentId then
    text3 ++ reviewResponsibilitiesText
  else if jsTruthyOpt reviewAgentId && (reviewAgentId.getD "" != agentId) then
    text3 ++ completionProtocolText (reviewAgentId.getD "") reviewLabel
  else text3

/-- The body of the `Object.keys(assignments).forEach` loop of
`Coordinator.buildAssignments`, for one agent.  `reviewLabel` stands for
`this.formatAgentLabel(reviewAgentId)`. -/
def buildAssignmentFor (roles : List (String × RoleEntry))
    (reviewAgentId : Option String) (reviewLabel : String)
    (agentId : String) (allocation : String) : String :=
  let text0 := buildAssignmentBase allocation
  let text1 :=
    if text0 == "" || noAllocRegexTest text0 then
      synthesizedAssignment (roleFieldPrimary roles agentId)
        (roleFieldSecondary roles agentId)
    else text0
  appendRoleAndReview roles reviewAgentId reviewLabel agentId text1

/-- `Coordinator.buildAssignments` over the allocations (the allocations of
one session carry pairwise-distinct agent ids, so the object keyed by agent
id is modelled by a pair list). -/
def buildAssignments (allocations : List AllocationEntry)
    (roles : List (String × RoleEntry)) (reviewAgentId : Option String)
    (reviewLabel : String) : List (String × String) :=
  allocations.map (fun entry =>
    (entry.agentId,
     buildAssignmentFor roles reviewAgentId reviewLabel entry.agentId entry.allocation))

/-! ## Concrete fixtures used by witnesses and counterexamples -/

def plainProfile : RoleProfile := RoleProfile.mk "" "" false none

def wAlpha : Agent := Agent.mk "alpha" "Alpha" true plainProfile

def wBravo : Agent := Agent.mk "bravo" "Bravo" true plainProfile

def wCharlie : Agent := Agent.mk "charlie" "Charlie" true plainProfile

/-- The registry's web-search agent (see src/agents/web-search.js), with its
availability flag set by `checkAvailability`. -/
def wWebSearch (available : Bool) : Agent :=
  Agent.mk "web-search" "Web Search" available
    (RoleProfile.mk "On-demand research and knowledge gathering"
      "Summaries of search findings for teammates" false (some (-100)))

/-- A concrete `generatePlan` behaviour: `alpha` fulfils, everyone else
rejects with `boom`. -/
def planCallW : Agent → Except String String := fun agent =>
  if agent.id == "alpha" then Except.ok "Plan A" else Except.error "boom"

/-- A concrete `negotiateResponsibilities` behaviour: everyone fulfils. -/
def negCallW : Agent → Except String String := fun agent =>
  Except.ok ("Allocation for " ++ agent.id)

/-- A concrete `executeTasks` behaviour: echoes the assignment it was
passed; `bravo` rejects. -/
def execCallW : Agent → String → Except String String := fun agent assignment =>
  if agent.id == "bravo" then Except.error "crash" else Except.ok assignment

/-- A concrete `initialize` behaviour: every agent except `web-search`
throws. -/
def initOnlyWebSearch : Agent → Except String Unit := fun agent =>
  if agent.id == "web-search" then Except.ok () else Except.error "no key"

/-- A concrete `initialize` behaviour: `alpha` initializes, everyone else
throws. -/
def initAlphaOnly : Agent → Except String Unit := fun agent =>
  if agent.id == "alpha" then Except.ok () else Except.error "no key"

end WorkTogether

namespace WorkTogether

/-! ## Theorems for claims C10 and C7 -/

theorem receiveTeamMessage_eq_lastTen {α : Type} (buf : List α) (m : α) :
    receiveTeamMessage buf m =
      (buf ++ [m]).drop ((buf ++ [m]).length - 10) := by
  simp only [receiveTeamMessage, MAX_TEAM_MESSAGES]
  by_cases h : (buf ++ [m]).length > 10
  · rw [if_pos h]
  · rw [if_neg h]
    have hl : (buf ++ [m]).length = buf.length + 1 := by simp
    have h0 : (buf ++ [m]).length - 10 = 0 := by omega
    rw [h0, List.drop_zero]

theorem teamBufferAfter_spec {α : Type} (msgs : List α) :
    teamBufferAfter msgs = msgs.drop (msgs.length - 10) ∧
      (teamBufferAfter msgs).length ≤ 10 := by
  have main : teamBufferAfter msgs = msgs.drop (msgs.length - 10) := by
    induction msgs using List.reverseRecOn with
    | nil => simp [teamBufferAfter]
    | append_singleton rest m ih =>
        have step : teamBufferAfter (rest ++ [m]) =
            receiveTeamMessage (teamBufferAfter rest) m := by
          simp [teamBufferAfter]
        rw [step, ih, receiveTeamMessage_eq_lastTen]
        by_cases hsmall : rest.length ≤ 10
        · have h0 : rest.length - 10 = 0 := by omega
          rw [h0, List.drop_zero]
        · have htlen : (rest.drop (rest.length - 10)).length = 10 := by
            simp only [List.length_drop]
            omega
          have hL1 : ((rest.drop (rest.length - 10)) ++ [m]).length - 10 = 1 := by
            simp only [List.length_append, List.length_cons, List.length_nil, htlen]
          rw [hL1]
          have hR : (rest ++ [m]).length - 10 = (rest.length - 10) + 1 := by
            simp only [List.length_append, List.length_cons, List.length_nil]
            omega
          rw [hR]
          rw [List.drop_append_of_le_length (by omega : 1 ≤ (rest.drop (rest.length - 10)).length)]
          rw [List.drop_append_of_le_length (by omega : (rest.length - 10) + 1 ≤ rest.length)]
          rw [List.drop_drop, Nat.add_comm]
  refine ⟨main, ?_⟩
  rw [main]
  simp only [List.length_drop]
  omega

theorem nodeEmit_all_ok (l : List (Except String Unit))
    (hl : ∀ o ∈ l, o = Except.ok ()) : nodeEmit l = (l.length, none) := by
  induction l with
  | nil => rfl
  | cons o rest ih =>
      have ho : o = Except.ok () := hl o (by simp)
      subst ho
      have hrest : ∀ x ∈ rest, x = Except.ok () := fun x hx => hl x (by simp [hx])
      simp [nodeEmit, ih hrest]

/-- C7 counterexample: two listeners are registered for the same event; the
first throws.  `emitter.emit` (as used by `createMessageBus`) invokes only
one of the two listeners — the registered listener after the throwing one
never runs, and the exception escapes the emit.  This refutes the claim that
every other listener registered for the event still runs. -/
theorem claim_C7_counterexample :
    nodeEmit [Except.error "boom", Except.ok ()] = (1, some "boom") ∧
      ([Except.error "boom", Except.ok ()] : List (Except String Unit)).length = 2 := by
  constructor
  · rfl
  · rfl

/-- C7 amended: when the listeners registered before the throwing listener
all return normally, an emit over `pre ++ [throwing] ++ post` invokes exactly
`pre.length + 1` listeners (all of `pre`, in order, then the throwing one);
the listeners registered after the throwing one are not invoked and the
exception propagates to the emitter.  When no listener throws, all of them
run. -/
theorem claim_C7_amended (pre post : List (Except String Unit)) (e : String)
    (hpre : ∀ o ∈ pre, o = Except.ok ()) :
    nodeEmit (pre ++ Except.error e :: post) = (pre.length + 1, some e) ∧
      nodeEmit pre = (pre.length, none) := by
  refine ⟨?_, nodeEmit_all_ok pre hpre⟩
  induction pre with
  | nil => rfl
  | cons o rest ih =>
      have ho : o = Except.ok () := hpre o (by simp)
      subst ho
      have hrest : ∀ x ∈ rest, x = Except.ok () := fun x hx => hpre x (by simp [hx])
      simp [nodeEmit, ih hrest]

/-- C7 amended, witness: a concrete emit with one well-behaved listener, a
throwing listener, and one listener after it. -/
theorem claim_C7_amended_witness :
    (∀ o ∈ ([Except.ok ()] : List (Except String Unit)), o = Except.ok ()) ∧
      (nodeEmit ([Except.ok ()] ++ Except.error "boom" :: [Except.ok ()]) =
          (([Except.ok ()] : List (Except String Unit)).length + 1, some "boom") ∧
        nodeEmit [Except.ok ()] = (([Except.ok ()] : List (Except String Unit)).length, none)) :=
  ⟨by simp, claim_C7_amended [Except.ok ()] [Except.ok ()] "boom" (by simp)⟩

/-- C10: for every worker, after any sequence of `receiveTeamMessage` calls
starting from the empty buffer, the stored team-message buffer holds at most
10 entries, and when more than 10 messages have been received exactly the 10
most recently received messages are retained, in arrival order
(`msgs.drop (msgs.length - 10)` is the final segment of the arrival list). -/
theorem claim_C10_team_buffer {α : Type} (msgs : List α) :
    teamBufferAfter msgs = msgs.drop (msgs.length - 10) ∧
      (teamBufferAfter msgs).length ≤ 10 :=
  teamBufferAfter_spec msgs

/-! ## Promise.allSettled is schedule-independent -/

theorem settleUpd_length {α : Type} (o : List α) (acc : List (Option α)) (i : Nat) :
    (settleUpd o acc i).length = acc.length := by
  unfold settleUpd
  cases h : o[i]? <;> simp

theorem foldl_settleUpd_length {α : Type} (o : List α) (completion : List Nat) :
    ∀ acc : List (Option α),
      (completion.foldl (settleUpd o) acc).length = acc.length := by
  induction completion with
  | nil => intro acc; rfl
  | cons j rest ih =>
      intro acc
      rw [List.foldl_cons, ih, settleUpd_length]

theorem foldl_settleUpd_not_mem {α : Type} (o : List α) (completion : List Nat) :
    ∀ (acc : List (Option α)) (i : Nat), i ∉ completion →
      (completion.foldl (settleUpd o) acc)[i]? = acc[i]? := by
  induction completion with
  | nil => intro acc i _; rfl
  | cons j rest ih =>
      intro acc i hi
      have hij : i ≠ j ∧ i ∉ rest := by
        constructor
        · intro h
          exact hi (h ▸ List.mem_cons_self j rest)
        · intro h
          exact hi (List.mem_cons_of_mem j h)
      rw [List.foldl_cons, ih _ i hij.2]
      unfold settleUpd
      cases h : o[j]? with
      | none => rfl
      | some v => exact List.getElem?_set_ne (Ne.symm hij.1)

theorem foldl_settleUpd_mem {α : Type} (o : List α) (completion : List Nat) :
    ∀ acc : List (Option α), acc.length = o.length →
      ∀ i, (hi : i < o.length) → i ∈ completion →
        (completion.foldl (settleUpd o) acc)[i]? = some (some o[i]) := by
  induction completion with
  | nil =>
      intro acc _ i _ him
      exact absurd him (List.not_mem_nil i)
  | cons j rest ih =>
      intro acc hlen i hi him
      rw [List.foldl_cons]
      have hlen' : (settleUpd o acc j).length = o.length := by
        rw [settleUpd_length]; exact hlen
      by_cases hmem : i ∈ rest
      · exact ih _ hlen' i hi hmem
      · have hij : i = j := by
          rcases List.mem_cons.mp him with h | h
          · exact h
          · exact absurd h hmem
        subst hij
        rw [foldl_settleUpd_not_mem o rest _ i hmem]
        unfold settleUpd
        rw [List.getElem?_eq_getElem hi]
        exact List.getElem?_set_self (by omega)

theorem settleSlots_of_complete {α : Type} (o : List α) (completion : List Nat)
    (hcomp : ∀ i, i < o.length → i ∈ completion) :
    settleSlots o completion = o.map some := by
  apply List.ext_getElem?
  intro n
  by_cases hn : n < o.length
  · rw [settleSlots, foldl_settleUpd_mem o completion _ (by simp) n hn (hcomp n hn)]
    rw [List.getElem?_map, List.getElem?_eq_getElem hn]
    rfl
  · have h1 : (settleSlots o completion).length = o.length := by
      rw [settleSlots, foldl_settleUpd_length]
      simp
    rw [List.getElem?_eq_none (by omega), List.getElem?_eq_none (by simp; omega)]

theorem collectSettled_map_some {α : Type} (l : List α) :
    collectSettled (l.map some) = some l := by
  induction l with
  | nil => rfl
  | cons a rest ih => simp [collectSettled, ih]

theorem allSettled_of_complete {α : Type} (o : List α) (completion : List Nat)
    (hcomp : ∀ i, i < o.length → i ∈ completion) :
    allSettled o completion = some o := by
  rw [allSettled, settleSlots_of_complete o completion hcomp, collectSettled_map_some]

theorem mapIdx_map_eq_map {α β γ : Type} (l : List α) (g : α → β) (f : Nat → β → γ)
    (h : α → γ) (hfh : ∀ i, (hi : i < l.length) → f i (g l[i]) = h l[i]) :
    (l.map g).mapIdx f = l.map h := by
  apply List.ext_getElem
  · rw [List.length_mapIdx, List.length_map, List.length_map]
  · intro i h1 h2
    have hi : i < l.length := by
      rw [List.length_mapIdx, List.length_map] at h1
      exact h1
    have hmg : i < (l.map g).length := by
      rw [List.length_map]
      exact hi
    have e1 : ((l.map g).mapIdx f)[i] = f i ((l.map g).get ⟨i, hmg⟩) := by
      rw [← List.get_eq_getElem ((l.map g).mapIdx f) ⟨i, h1⟩]
      exact List.get_mapIdx (l.map g) f i hmg
    rw [e1, List.get_eq_getElem, List.getElem_map, List.getElem_map]
    exact hfh i hi

/-! ## Claim C1: fan-out totality, order, and fallback entries -/

/-- C1: for every active worker set and any completion schedule that settles
every call, each of `runGeneratePlans`, `runNegotiation` and
`executeAssignments` returns exactly one entry per active worker, aggregated
in the registration order of the active workers (the right-hand sides never
mention the completion schedule, so the result is independent of completion
order), and a worker whose call rejects contributes the synthetic fallback
entry `<action> failed: <message>` instead of being dropped. -/
theorem claim_C1_fanout_totality (activeAgents : List Agent)
    (generatePlan negotiateResponsibilities : Agent → Except String String)
    (assignmentsMap : List (String × String))
    (executeTasks : Agent → String → Except String String)
    (completion : List Nat)
    (hcomp : ∀ i, i < activeAgents.length → i ∈ completion) :
    runGeneratePlans activeAgents generatePlan completion =
        some (activeAgents.map (expectedPlanEntry generatePlan)) ∧
      runNegotiation activeAgents negotiateResponsibilities completion =
        some (activeAgents.map (expectedAllocationEntry negotiateResponsibilities)) ∧
      executeAssignments activeAgents assignmentsMap executeTasks completion =
        some (activeAgents.map (expectedTranscriptEntry assignmentsMap executeTasks)) ∧
      (activeAgents.map (expectedPlanEntry generatePlan)).length = activeAgents.length ∧
      (activeAgents.map (expectedAllocationEntry negotiateResponsibilities)).length
          = activeAgents.length ∧
      (activeAgents.map (expectedTranscriptEntry assignmentsMap executeTasks)).length
          = activeAgents.length := by
  refine ⟨?_, ?_, ?_, by rw [List.length_map], by rw [List.length_map], by rw [List.length_map]⟩
  · rw [runGeneratePlans, allSettled_of_complete _ completion (by simpa using hcomp)]
    rw [Option.map_some']
    congr 1
    apply mapIdx_map_eq_map
    intro i hi
    cases hg : generatePlan activeAgents[i] with
    | ok plan => simp [hg, expectedPlanEntry, Except.map]
    | error reason =>
        simp [hg, expectedPlanEntry, Except.map, fallbackAgentId, fallbackAgentName,
          List.getElem?_eq_getElem hi]
  · rw [runNegotiation, allSettled_of_complete _ completion (by simpa using hcomp)]
    rw [Option.map_some']
    congr 1
    apply mapIdx_map_eq_map
    intro i hi
    cases hg : negotiateResponsibilities activeAgents[i] with
    | ok allocation => simp [hg, expectedAllocationEntry, Except.map]
    | error reason =>
        simp [hg, expectedAllocationEntry, Except.map, fallbackAgentId,
          List.getElem?_eq_getElem hi]
  · rw [executeAssignments, allSettled_of_complete _ completion (by simpa using hcomp)]
    rw [Option.map_some']
    congr 1
    apply mapIdx_map_eq_map
    intro i hi
    cases hg : executeTasks activeAgents[i]
        (jsOr ((assignmentsMap.lookup activeAgents[i].id).getD "") "") with
    | ok transcript => simp [hg, expectedTranscriptEntry, Except.map]
    | error reason =>
        simp [hg, expectedTranscriptEntry, Except.map, fallbackAgentId,
          List.getElem?_eq_getElem hi]

/-- C1 witness: two workers, a completion schedule that settles the second
call before the first, a rejecting `generatePlan` for `bravo` and a
rejecting `executeTasks` for `bravo`; the batches still produce one entry
per worker, in registration order, with the documented fallback texts. -/
theorem claim_C1_fanout_totality_witness :
    (∀ i, i < ([wAlpha, wBravo] : List Agent).length → i ∈ [1, 0]) ∧
      (runGeneratePlans [wAlpha, wBravo] planCallW [1, 0] =
          some ([wAlpha, wBravo].map (expectedPlanEntry planCallW)) ∧
        runNegotiation [wAlpha, wBravo] negCallW [1, 0] =
          some ([wAlpha, wBravo].map (expectedAllocationEntry negCallW)) ∧
        executeAssignments [wAlpha, wBravo] [("alpha", "do alpha")] execCallW [1, 0] =
          some ([wAlpha, wBravo].map
            (expectedTranscriptEntry [("alpha", "do alpha")] execCallW)) ∧
        ([wAlpha, wBravo].map (expectedPlanEntry planCallW)).length
            = ([wAlpha, wBravo] : List Agent).length ∧
        ([wAlpha, wBravo].map (expectedAllocationEntry negCallW)).length
            = ([wAlpha, wBravo] : List Agent).length ∧
        ([wAlpha, wBravo].map
            (expectedTranscriptEntry [("alpha", "do alpha")] execCallW)).length
            = ([wAlpha, wBravo] : List Agent).length) :=
  ⟨by decide,
   claim_C1_fanout_totality [wAlpha, wBravo] planCallW negCallW
     [("alpha", "do alpha")] execCallW [1, 0] (by decide)⟩

/-! ## Claims C2 and C9: initialization threshold and the web-search auto-add -/

/-- C2 counterexample: with the default `enableWebSearchAgent` setting, the
registry holds `alpha` and an available `web-search` agent, only `alpha` is
requested, and every requested worker's `initialize` call throws — yet
`initializeSession` succeeds (the auto-added `web-search` worker initialized),
with a session containing only the web-search worker.  This refutes the
claim that session initialization raises an error whenever every requested
worker fails to initialize. -/
theorem claim_C2_counterexample :
    (∀ a ∈ requestedAgents [wAlpha, wWebSearch true] ["alpha"],
        initOk initOnlyWebSearch a = false) ∧
      initializeSession [wAlpha, wWebSearch true] ["alpha"] true initOnlyWebSearch =
        Except.ok (SessionInit.mk [("web-search", "Web Search")]
          [InitFailure.mk "alpha" "no key"]) := by
  constructor
  · decide
  · rfl

theorem initializeSession_unfold (agents : List Agent) (agentIds : List String)
    (enableWebSearchAgent : Bool) (initCall : Agent → Except String Unit)
    (hne : agentIds.isEmpty = false) :
    initializeSession agents agentIds enableWebSearchAgent initCall =
      (if ((selectedForInit agents agentIds enableWebSearchAgent).filter
            (initOk initCall)).length = 0 then
        Except.error
          ("Selected agents failed to initialise. Check SDK setup and API keys. Details: "
            ++ joinFailureDetails (initFailuresOf initCall
                (selectedForInit agents agentIds enableWebSearchAgent)))
      else
        Except.ok (SessionInit.mk
          (((selectedForInit agents agentIds enableWebSearchAgent).filter
              (initOk initCall)).map (fun a => (a.id, a.name)))
          (initFailuresOf initCall
            (selectedForInit agents agentIds enableWebSearchAgent)))) := by
  rw [initializeSession, hne]
  rfl

theorem initOk_false_iff (initCall : Agent → Except String Unit) (a : Agent) :
    initOk initCall a = false ↔ ∃ e, initCall a = Except.error e := by
  unfold initOk
  cases h : initCall a <;> simp

/-- C2 amended: when the attempted set equals the requested set — here,
with the web-search auto-add disabled — session initialization fails exactly
when zero requested workers initialize successfully; on success the
session's agent list holds exactly the requested workers whose
initialization succeeded, in registration order, and the failures list
records each failed worker's id and error and is nonempty whenever some
requested worker failed. -/
theorem claim_C2_amended (agents : List Agent) (agentIds : List String)
    (initCall : Agent → Except String Unit) (hne : agentIds.isEmpty = false) :
    ((∃ msg, initializeSession agents agentIds false initCall = Except.error msg) ↔
        ∀ a ∈ requestedAgents agents agentIds, initOk initCall a = false) ∧
      (∀ s, initializeSession agents agentIds false initCall = Except.ok s →
        s.agents = ((requestedAgents agents agentIds).filter (initOk initCall)).map
            (fun a => (a.id, a.name)) ∧
          s.failures = initFailuresOf initCall (requestedAgents agents agentIds)) ∧
      ((∃ a ∈ requestedAgents agents agentIds, initOk initCall a = false) →
        ∀ s, initializeSession agents agentIds false initCall = Except.ok s →
          s.failures ≠ []) := by
  have hsel : selectedForInit agents agentIds false = requestedAgents agents agentIds := rfl
  have hunfold := initializeSession_unfold agents agentIds false initCall hne
  rw [hsel] at hunfold
  refine ⟨?_, ?_, ?_⟩
  · constructor
    · rintro ⟨msg, hmsg⟩
      rw [hunfold] at hmsg
      by_cases hz : ((requestedAgents agents agentIds).filter (initOk initCall)).length = 0
      · intro a ha
        have hnil := List.length_eq_zero.mp hz
        have := List.filter_eq_nil_iff.mp hnil a ha
        simpa using this
      · rw [if_neg hz] at hmsg
        exact absurd hmsg (by simp)
    · intro hall
      have hnil : (requestedAgents agents agentIds).filter (initOk initCall) = [] := by
        apply List.filter_eq_nil_iff.mpr
        intro a ha
        simp [hall a ha]
      rw [hunfold, if_pos (by rw [hnil]; rfl)]
      exact ⟨_, rfl⟩
  · intro s hs
    rw [hunfold] at hs
    by_cases hz : ((requestedAgents agents agentIds).filter (initOk initCall)).length = 0
    · rw [if_pos hz] at hs
      exact absurd hs (by simp)
    · rw [if_neg hz] at hs
      have := Except.ok.inj hs
      rw [← this]
      exact ⟨rfl, rfl⟩
  · rintro ⟨a, ha, hfail⟩ s hs
    rw [hunfold] at hs
    by_cases hz : ((requestedAgents agents agentIds).filter (initOk initCall)).length = 0
    · rw [if_pos hz] at hs
      exact absurd hs (by simp)
    · rw [if_neg hz] at hs
      have hsval := Except.ok.inj hs
      obtain ⟨e, he⟩ := (initOk_false_iff initCall a).mp hfail
      have hmem : InitFailure.mk a.id e ∈
          initFailuresOf initCall (requestedAgents agents agentIds) := by
        apply List.mem_filterMap.mpr
        exact ⟨a, ha, by rw [he]⟩
      have : s.failures = initFailuresOf initCall (requestedAgents agents agentIds) := by
        rw [← hsval]
      rw [this]
      exact List.ne_nil_of_mem hmem

/-- C2 amended, witness: `alpha` succeeds and `bravo` fails, with the
auto-add disabled; the threshold behaviour holds at this concrete input. -/
theorem claim_C2_amended_witness :
    (([ "alpha", "bravo" ] : List String).isEmpty = false) ∧
      (((∃ msg, initializeSession [wAlpha, wBravo] ["alpha", "bravo"] false
            initAlphaOnly = Except.error msg) ↔
          ∀ a ∈ requestedAgents [wAlpha, wBravo] ["alpha", "bravo"],
            initOk initAlphaOnly a = false) ∧
        (∀ s, initializeSession [wAlpha, wBravo] ["alpha", "bravo"] false
            initAlphaOnly = Except.ok s →
          s.agents = ((requestedAgents [wAlpha, wBravo] ["alpha", "bravo"]).filter
              (initOk initAlphaOnly)).map (fun a => (a.id, a.name)) ∧
            s.failures = initFailuresOf initAlphaOnly
              (requestedAgents [wAlpha, wBravo] ["alpha", "bravo"])) ∧
        ((∃ a ∈ requestedAgents [wAlpha, wBravo] ["alpha", "bravo"],
            initOk initAlphaOnly a = false) →
          ∀ s, initializeSession [wAlpha, wBravo] ["alpha", "bravo"] false
              initAlphaOnly = Except.ok s →
            s.failures ≠ [])) :=
  ⟨by decide,
   claim_C2_amended [wAlpha, wBravo] ["alpha", "bravo"] initAlphaOnly (by decide)⟩

/-- C9 counterexample: `enableWebSearchAgent` is not false and the
web-search worker's id is not among the requested ids, yet it is not
appended, because its `available` flag is `false` (the auto-add also checks
`searchAgent.available !== false`).  Every initialization succeeds here, so
the active set equals the requested set without the web-search worker. -/
theorem claim_C9_counterexample :
    initializeSelected [wAlpha, wWebSearch false] ["alpha"] true
        (fun _ => Except.ok ()) = ([wAlpha], []) ∧
      (wWebSearch false).id = "web-search" ∧
      (["alpha"] : List String).contains "web-search" = false := by
  refine ⟨rfl, rfl, rfl⟩

/-- C9 amended: whenever `enableWebSearchAgent` is not explicitly false, the
registry holds a web-search worker whose `available` flag is not false, and
its id is not among the requested ids, `initializeSelected` appends the
web-search worker to the attempted selection; consequently, when it
initializes successfully the active set strictly exceeds the requested
successes, and session initialization does not raise an error even when
every requested worker fails to initialize. -/
theorem claim_C9_amended (agents : List Agent) (agentIds : List String)
    (initCall : Agent → Except String Unit) (ws : Agent)
    (hfind : agents.find? (fun agent => agent.id == "web-search") = some ws)
    (havail : ws.available = true)
    (hnotsel : agentIds.contains "web-search" = false)
    (hne : agentIds.isEmpty = false)
    (hws : initCall ws = Except.ok ())
    (hfail : ∀ a ∈ requestedAgents agents agentIds, initOk initCall a = false) :
    selectedForInit agents agentIds true = requestedAgents agents agentIds ++ [ws] ∧
      (initializeSelected agents agentIds true initCall).1 = [ws] ∧
      ∃ s, initializeSession agents agentIds true initCall = Except.ok s ∧
        s.agents = [(ws.id, ws.name)] ∧
        s.failures = initFailuresOf initCall (requestedAgents agents agentIds) := by
  have hsel : selectedForInit agents agentIds true =
      requestedAgents agents agentIds ++ [ws] := by
    rw [selectedForInit]
    simp only [if_true]
    rw [hfind, hnotsel]
    simp [havail]
  have hreqnil : (requestedAgents agents agentIds).filter (initOk initCall) = [] := by
    apply List.filter_eq_nil_iff.mpr
    intro a ha
    simp [hfail a ha]
  have hwsok : initOk initCall ws = true := by
    rw [initOk, hws]
  have hactive : (selectedForInit agents agentIds true).filter (initOk initCall) = [ws] := by
    rw [hsel, List.filter_append, hreqnil]
    simp [hwsok]
  have hfailures : initFailuresOf initCall (selectedForInit agents agentIds true) =
      initFailuresOf initCall (requestedAgents agents agentIds) := by
    rw [hsel, initFailuresOf, List.filterMap_append]
    have : ([ws] : List Agent).filterMap (fun agent =>
        match initCall agent with
        | .ok _ => none
        | .error e => some (InitFailure.mk agent.id e)) = [] := by
      simp [List.filterMap, hws]
    rw [initFailuresOf, this, List.append_nil]
  refine ⟨hsel, ?_, ?_⟩
  · rw [initializeSelected]
    exact hactive
  · rw [initializeSession_unfold agents agentIds true initCall hne, hactive, hfailures]
    rw [if_neg (by simp)]
    exact ⟨_, rfl, rfl, rfl⟩

/-- C9 amended, witness: `alpha` requested and failing, an available
web-search worker auto-added and succeeding. -/
theorem claim_C9_amended_witness :
    (([wAlpha, wWebSearch true] : List Agent).find?
        (fun agent => agent.id == "web-search") = some (wWebSearch true) ∧
      (wWebSearch true).available = true ∧
      (["alpha"] : List String).contains "web-search" = false ∧
      (["alpha"] : List String).isEmpty = false ∧
      initOnlyWebSearch (wWebSearch true) = Except.ok () ∧
      (∀ a ∈ requestedAgents [wAlpha, wWebSearch true] ["alpha"],
        initOk initOnlyWebSearch a = false)) ∧
      (selectedForInit [wAlpha, wWebSearch true] ["alpha"] true =
          requestedAgents [wAlpha, wWebSearch true] ["alpha"] ++ [wWebSearch true] ∧
        (initializeSelected [wAlpha, wWebSearch true] ["alpha"] true
            initOnlyWebSearch).1 = [wWebSearch true] ∧
        ∃ s, initializeSession [wAlpha, wWebSearch true] ["alpha"] true
              initOnlyWebSearch = Except.ok s ∧
          s.agents = [((wWebSearch true).id, (wWebSearch true).name)] ∧
          s.failures = initFailuresOf initOnlyWebSearch
            (requestedAgents [wAlpha, wWebSearch true] ["alpha"])) :=
  ⟨⟨by decide, by decide, by decide, by decide, by rfl, by decide⟩,
   claim_C9_amended [wAlpha, wWebSearch true] ["alpha"] initOnlyWebSearch
     (wWebSearch true) (by decide) (by decide) (by decide) (by decide) (by rfl)
     (by decide)⟩

/-! ## Claim C3: team-message recipient resolution -/

/-- C3 counterexample: three active workers; a message from `alpha` with
`scope = direct` and `to = "BRAVO"` (worker Bravo's display name in a
different case).  The claim says the case-insensitive name match resolves
the recipients to `[wBravo]`; `determineRecipientsForMessage` matches ids
and names with `===` (case-sensitive), finds no target, and falls back to
broadcasting to all others. -/
theorem claim_C3_counterexample :
    determineRecipientsForMessage [wAlpha, wBravo, wCharlie]
        (TeamMessage.mk "alpha" (some "direct") (some "BRAVO")) =
      [wBravo, wCharlie] ∧
      jsToLower "BRAVO" = jsToLower wBravo.name ∧
      determineRecipientsForMessage [wAlpha, wBravo, wCharlie]
        (TeamMessage.mk "alpha" (some "direct") (some "BRAVO")) ≠ [wBravo] := by
  refine ⟨by decide, by decide, by decide⟩

/-- C3 amended: recipient resolution over the active set excluding the
sender satisfies: with zero other active workers the recipient set is empty;
with exactly one other active worker that worker is the sole recipient
regardless of scope or target; with two or more others, any scope other than
direct-or-auto-with-target (in particular `group`, and `auto` with no
truthy target) yields all others, while scope `direct` (or `auto` with a
truthy target) yields exactly the single worker whose id or display name
equals the target EXACTLY (case-sensitively — case-insensitive target
resolution happens earlier, in the sender's `resolveAgentIdentifier`, not
here), and falls back to all others when no worker matches exactly. -/
theorem claim_C3_amended (activeAgents : List Agent) (message : TeamMessage) :
    (othersOf activeAgents message.fromId = [] →
        determineRecipientsForMessage activeAgents message = []) ∧
      ((othersOf activeAgents message.fromId).length = 1 →
        determineRecipientsForMessage activeAgents message =
          othersOf activeAgents message.fromId) ∧
      (2 ≤ (othersOf activeAgents message.fromId).length →
        (((jsToLower (jsOr (message.scope.getD "") "auto") = "direct" ∨
            (jsToLower (jsOr (message.scope.getD "") "auto") = "auto" ∧
              jsTruthyOpt message.toTarget = true)) →
          ((∀ target,
              resolveTarget (othersOf activeAgents message.fromId) message.toTarget
                  = some target →
                determineRecipientsForMessage activeAgents message = [target] ∧
                target ∈ othersOf activeAgents message.fromId ∧
                (target.id = message.toTarget.getD ""
                  ∨ target.name = message.toTarget.getD "")) ∧
            (resolveTarget (othersOf activeAgents message.fromId) message.toTarget
                  = none →
              determineRecipientsForMessage activeAgents message =
                othersOf activeAgents message.fromId))) ∧
          (¬(jsToLower (jsOr (message.scope.getD "") "auto") = "direct" ∨
              (jsToLower (jsOr (message.scope.getD "") "auto") = "auto" ∧
                jsTruthyOpt message.toTarget = true)) →
            determineRecipientsForMessage activeAgents message =
              othersOf activeAgents message.fromId))) := by
  refine ⟨?_, ?_, ?_⟩
  · intro h
    rw [determineRecipientsForMessage]
    simp only [h]
    rfl
  · intro h
    rw [determineRecipientsForMessage]
    simp only [h]
    rfl
  · intro h2
    have hne0 : ¬((othersOf activeAgents message.fromId).length = 0) := by omega
    have hne1 : ¬((othersOf activeAgents message.fromId).length = 1) := by omega
    constructor
    · intro hscope
      have hcond : (jsToLower (jsOr (message.scope.getD "") "auto") == "direct" ||
          (jsToLower (jsOr (message.scope.getD "") "auto") == "auto" &&
            jsTruthyOpt message.toTarget)) = true := by
        rcases hscope with h | ⟨h, ht⟩
        · simp [h]
        · simp [h, ht]
      constructor
      · intro target htarget
        have hfound : ∃ t, message.toTarget = some t ∧
            (othersOf activeAgents message.fromId).find?
              (fun agent => agent.id == t || agent.name == t) = some target := by
          cases hto : message.toTarget with
          | none =>
              rw [hto] at htarget
              simp only [resolveTarget] at htarget
              exact absurd htarget (by simp)
          | some t =>
              rw [hto] at htarget
              simp only [resolveTarget] at htarget
              by_cases hemp : t == ""
              · rw [if_pos hemp] at htarget
                exact absurd htarget (by simp)
              · rw [if_neg hemp] at htarget
                exact ⟨t, rfl, htarget⟩
        obtain ⟨t, hto, hfind⟩ := hfound
        refine ⟨?_, List.mem_of_find?_eq_some hfind, ?_⟩
        · rw [determineRecipientsForMessage]
          simp only [if_neg hne0, if_neg hne1, hcond, if_true, htarget]
        · have hp := List.find?_some hfind
          rw [hto, Option.getD_some]
          simpa using hp
      · intro hnone
        rw [determineRecipientsForMessage]
        simp only [if_neg hne0, if_neg hne1, hcond, if_true, hnone]
    · intro hscope
      have hcond : (jsToLower (jsOr (message.scope.getD "") "auto") == "direct" ||
          (jsToLower (jsOr (message.scope.getD "") "auto") == "auto" &&
            jsTruthyOpt message.toTarget)) = false := by
        rw [Bool.or_eq_false_iff, Bool.and_eq_false_iff]
        push_neg at hscope
        constructor
        · simp [hscope.1]
        · by_cases ha : jsToLower (jsOr (message.scope.getD "") "auto") = "auto"
          · right
            have := hscope.2 ha
            simp [this]
          · left
            simp [ha]
      rw [determineRecipientsForMessage]
      simp only [if_neg hne0, if_neg hne1, hcond]
      by_cases hg : jsToLower (jsOr (message.scope.getD "") "auto") == "group" <;> simp [hg]

/-- C3 amended, witness: three workers, exercising the exact-name direct
match (recipients `[wBravo]`) through the amended theorem. -/
theorem claim_C3_amended_witness :
    (2 ≤ (othersOf [wAlpha, wBravo, wCharlie] "alpha").length ∧
      (jsToLower (jsOr ((some "direct" : Option String).getD "") "auto") = "direct" ∨
        (jsToLower (jsOr ((some "direct" : Option String).getD "") "auto") = "auto" ∧
          jsTruthyOpt (some "Bravo") = true)) ∧
      resolveTarget (othersOf [wAlpha, wBravo, wCharlie] "alpha") (some "Bravo")
          = some wBravo) ∧
      (determineRecipientsForMessage [wAlpha, wBravo, wCharlie]
          (TeamMessage.mk "alpha" (some "direct") (some "Bravo")) = [wBravo] ∧
        wBravo ∈ othersOf [wAlpha, wBravo, wCharlie] "alpha" ∧
        (wBravo.id = (some "Bravo" : Option String).getD ""
          ∨ wBravo.name = (some "Bravo" : Option String).getD "")) :=
  ⟨⟨by decide, by decide, by decide⟩,
   (((claim_C3_amended [wAlpha, wBravo, wCharlie]
        (TeamMessage.mk "alpha" (some "direct") (some "Bravo"))).2.2
      (by decide)).1 (by decide)).1 wBravo (by decide)⟩

/-! ## Claim C4: manual variant selection round-trip -/

theorem submitVariantSelection_unfold (pending : PendingSelection) (rawValue : String) :
    submitVariantSelection (some pending) pending.requestId rawValue =
      (if jsTrim rawValue = "" then
        (SubmitResult.mk false none none none (some "Please enter a selection."),
         some pending, none)
      else if jsToLower (jsTrim rawValue) = "auto" then
        (SubmitResult.mk true (some "auto") none
          (some "Delegated to automatic selection.") none,
         none, some Resolution.auto)
      else
        match pending.options.find? (optionMatches (jsToLower (jsTrim rawValue))) with
        | none =>
            (SubmitResult.mk false none none none
              (some ("Unrecognised selection \"" ++ jsTrim rawValue
                ++ "\". Choose by number, agent id, agent name, or \"auto\".")),
             some pending, none)
        | some m =>
            (SubmitResult.mk true (some "manual") (some m.agentId)
              (some ("Selected variant from " ++ m.agentName ++ ".")) none,
             none,
             some (Resolution.manual m.agentId ("User selected " ++ m.agentName ++ ".")))) := by
  rw [submitVariantSelection]
  simp only [bne_self_eq_false, Bool.false_eq_true, if_false]

/-- C4: while a manual selection with request id `pending.requestId` and
option list `pending.options` is pending, a submission succeeds exactly when
the trimmed value is nonempty and either equals `auto` case-insensitively or
matches some option by case-insensitive agent id, case-insensitive agent
name, or decimal (1-based) index; a failed submission returns a descriptive
error and leaves the pending slot unchanged (retries unlimited); a call with
a different request id is rejected unchanged; `auto` resolves the
continuation with the automatic-delegation value, whose handler is exactly
the automatic strategy. -/
theorem claim_C4_submit_roundtrip (pending : PendingSelection) (rawValue : String) :
    ((submitVariantSelection (some pending) pending.requestId rawValue).1.success = true ↔
        (jsTrim rawValue ≠ "" ∧
          (jsToLower (jsTrim rawValue) = "auto" ∨
            ∃ o ∈ pending.options,
              optionMatches (jsToLower (jsTrim rawValue)) o = true))) ∧
      ((submitVariantSelection (some pending) pending.requestId rawValue).1.success = false →
        (submitVariantSelection (some pending) pending.requestId rawValue).2.1 = some pending ∧
          (submitVariantSelection (some pending) pending.requestId rawValue).1.error ≠ none) ∧
      (∀ rid, rid ≠ pending.requestId →
        submitVariantSelection (some pending) rid rawValue =
          (SubmitResult.mk false none none none
            (some "No active variant selection request."), some pending, none)) ∧
      (jsTrim rawValue ≠ "" → jsToLower (jsTrim rawValue) = "auto" →
        (submitVariantSelection (some pending) pending.requestId rawValue).2.2
            = some Resolution.auto ∧
          (submitVariantSelection (some pending) pending.requestId rawValue).1.mode
            = some "auto") ∧
      (∀ m, jsTrim rawValue ≠ "" → jsToLower (jsTrim rawValue) ≠ "auto" →
        pending.options.find? (optionMatches (jsToLower (jsTrim rawValue))) = some m →
        (submitVariantSelection (some pending) pending.requestId rawValue).1.agentId
            = some m.agentId ∧
          (submitVariantSelection (some pending) pending.requestId rawValue).2.1 = none) ∧
      (∀ results reviewAgentId label,
        applyManualResolution results reviewAgentId label (some Resolution.auto) =
          autoSelectVariant results reviewAgentId label) := by
  have hu := submitVariantSelection_unfold pending rawValue
  refine ⟨?_, ?_, ?_, ?_, ?_, ?_⟩
  · constructor
    · intro hsucc
      by_cases hv : jsTrim rawValue = ""
      · rw [hu, if_pos hv] at hsucc
        exact absurd hsucc (by simp)
      · refine ⟨hv, ?_⟩
        by_cases ha : jsToLower (jsTrim rawValue) = "auto"
        · exact Or.inl ha
        · right
          rw [hu, if_neg hv, if_neg ha] at hsucc
          cases hfind : pending.options.find?
              (optionMatches (jsToLower (jsTrim rawValue))) with
          | none => rw [hfind] at hsucc; exact absurd hsucc (by simp)
          | some m =>
              exact ⟨m, List.mem_of_find?_eq_some hfind, List.find?_some hfind⟩
    · rintro ⟨hv, ha | hm⟩
      · rw [hu, if_neg hv, if_pos ha]
      · obtain ⟨o, hmem, hpred⟩ := hm
        by_cases ha : jsToLower (jsTrim rawValue) = "auto"
        · rw [hu, if_neg hv, if_pos ha]
        · rw [hu, if_neg hv, if_neg ha]
          cases hfind : pending.options.find?
              (optionMatches (jsToLower (jsTrim rawValue))) with
          | none =>
              have := List.find?_eq_none.mp hfind o hmem
              exact absurd hpred this
          | some m => simp
  · intro hfail
    by_cases hv : jsTrim rawValue = ""
    · rw [hu, if_pos hv]
      exact ⟨rfl, by simp⟩
    · by_cases ha : jsToLower (jsTrim rawValue) = "auto"
      · rw [hu, if_neg hv, if_pos ha] at hfail
        exact absurd hfail (by simp)
      · rw [hu, if_neg hv, if_neg ha] at hfail ⊢
        cases hfind : pending.options.find?
            (optionMatches (jsToLower (jsTrim rawValue))) with
        | none => simp
        | some m => rw [hfind] at hfail; exact absurd hfail (by simp)
  · intro rid hrid
    rw [submitVariantSelection]
    have : (pending.requestId != rid) = true := by
      simp [bne_iff_ne]
      exact fun h => hrid (h.symm)
    rw [this]
    simp
  · intro hv ha
    rw [hu, if_neg hv, if_pos ha]
    exact ⟨rfl, rfl⟩
  · intro m hv ha hfind
    rw [hu, if_neg hv, if_neg ha, hfind]
    exact ⟨rfl, rfl⟩
  · intro results reviewAgentId label
    rfl

/-- C4 witness: a pending request with two options; submitting `" 2 "`
(whitespace-padded index) succeeds and selects the second option, clearing
the pending slot; the other hypotheses are checked concretely. -/
theorem claim_C4_submit_roundtrip_witness :
    (jsTrim " 2 " ≠ "" ∧ jsToLower (jsTrim " 2 ") ≠ "auto" ∧
      (PendingSelection.mk "req-1"
          [SelectionOption.mk "w1" "Worker One" 1 "dir1",
           SelectionOption.mk "w2" "Worker Two" 2 "dir2"]).options.find?
        (optionMatches (jsToLower (jsTrim " 2 "))) =
          some (SelectionOption.mk "w2" "Worker Two" 2 "dir2")) ∧
      ((submitVariantSelection
          (some (PendingSelection.mk "req-1"
            [SelectionOption.mk "w1" "Worker One" 1 "dir1",
             SelectionOption.mk "w2" "Worker Two" 2 "dir2"]))
          "req-1" " 2 ").1.agentId = some "w2" ∧
        (submitVariantSelection
          (some (PendingSelection.mk "req-1"
            [SelectionOption.mk "w1" "Worker One" 1 "dir1",
             SelectionOption.mk "w2" "Worker Two" 2 "dir2"]))
          "req-1" " 2 ").2.1 = none) :=
  ⟨⟨by decide, by decide, by decide⟩,
   (claim_C4_submit_roundtrip
      (PendingSelection.mk "req-1"
        [SelectionOption.mk "w1" "Worker One" 1 "dir1",
         SelectionOption.mk "w2" "Worker Two" 2 "dir2"]) " 2 ").2.2.2.2.1
     (SelectionOption.mk "w2" "Worker Two" 2 "dir2")
     (by decide) (by decide) (by decide)⟩

/-! ## Claim C5: review-role assignment -/

theorem foldl_pickStep_some (l : List RoleEntry) :
    ∀ (i : String) (p : Int),
      l.foldl pickStep (some i, some p) =
        (some (l.foldl pickAcc (i, p)).1, some (l.foldl pickAcc (i, p)).2) := by
  induction l with
  | nil => intro i p; rfl
  | cons e rest ih =>
      intro i p
      rw [List.foldl_cons, List.foldl_cons]
      by_cases h : rolePriority e > p
      · have h1 : pickStep (some i, some p) e = (some e.id, some (rolePriority e)) := by
          simp [pickStep, h]
        have h2 : pickAcc (i, p) e = (e.id, rolePriority e) := by
          simp [pickAcc, h]
        rw [h1, h2, ih]
      · have h1 : pickStep (some i, some p) e = (some i, some p) := by
          simp [pickStep, h]
        have h2 : pickAcc (i, p) e = (i, p) := by
          simp [pickAcc, h]
        rw [h1, h2, ih]

theorem foldl_pickAcc_char (l : List RoleEntry) :
    ∀ (i : String) (p : Int),
      ((l.foldl pickAcc (i, p)).1 = i ∧ (l.foldl pickAcc (i, p)).2 = p ∧
        ∀ e ∈ l, rolePriority e ≤ p) ∨
      (∃ k, ∃ hk : k < l.length,
        (l.foldl pickAcc (i, p)).1 = (l.get ⟨k, hk⟩).id ∧
        (l.foldl pickAcc (i, p)).2 = rolePriority (l.get ⟨k, hk⟩) ∧
        p < rolePriority (l.get ⟨k, hk⟩) ∧
        (∀ j, (hj : j < l.length) →
          rolePriority (l.get ⟨j, hj⟩) ≤ rolePriority (l.get ⟨k, hk⟩)) ∧
        (∀ j, (hj : j < k) →
          rolePriority (l.get ⟨j, Nat.lt_trans hj hk⟩) <
            rolePriority (l.get ⟨k, hk⟩))) := by
  induction l with
  | nil =>
      intro i p
      left
      exact ⟨rfl, rfl, by simp⟩
  | cons e rest ih =>
      intro i p
      rw [List.foldl_cons]
      by_cases h : rolePriority e > p
      · have h2 : pickAcc (i, p) e = (e.id, rolePriority e) := by simp [pickAcc, h]
        rw [h2]
        rcases ih e.id (rolePriority e) with ⟨h1, hp, hall⟩ | ⟨k, hk, h1, hp, hgt, hmax, hbefore⟩
        · right
          refine ⟨0, by simp, by simpa using h1, by simpa using hp, by simpa using h, ?_, ?_⟩
          · intro j hj
            cases j with
            | zero => simp
            | succ j' =>
                have hj' : j' < rest.length := by simpa using hj
                have := hall (rest.get ⟨j', hj'⟩) (List.get_mem rest j' hj')
                simpa using this
          · intro j hj
            omega
        · right
          refine ⟨k + 1, by simpa using Nat.succ_lt_succ hk, by simpa using h1,
            by simpa using hp, ?_, ?_, ?_⟩
          · have : p < rolePriority e := h
            have h3 : rolePriority e < rolePriority (rest.get ⟨k, hk⟩) := hgt
            calc p < rolePriority e := this
              _ ≤ rolePriority ((e :: rest).get ⟨k + 1, Nat.succ_lt_succ hk⟩) := by
                  simpa using le_of_lt h3
          · intro j hj
            cases j with
            | zero => simpa using le_of_lt hgt
            | succ j' =>
                have hj' : j' < rest.length := by simpa using hj
                have := hmax j' hj'
                simpa using this
          · intro j hj
            cases j with
            | zero => simpa using hgt
            | succ j' =>
                have hj' : j' < k := by omega
                have := hbefore j' hj'
                simpa using this
      · have h2 : pickAcc (i, p) e = (i, p) := by simp [pickAcc, h]
        rw [h2]
        rcases ih i p with ⟨h1, hp, hall⟩ | ⟨k, hk, h1, hp, hgt, hmax, hbefore⟩
        · left
          refine ⟨h1, hp, ?_⟩
          intro x hx
          rcases List.mem_cons.mp hx with hx | hx
          · subst hx; omega
          · exact hall x hx
        · right
          refine ⟨k + 1, by simpa using Nat.succ_lt_succ hk, by simpa using h1,
            by simpa using hp, by simpa using hgt, ?_, ?_⟩
          · intro j hj
            cases j with
            | zero =>
                have h5 : rolePriority e ≤ p := by omega
                have h4 : p < rolePriority (rest.get ⟨k, hk⟩) := hgt
                show rolePriority e ≤ rolePriority (rest.get ⟨k, hk⟩)
                omega
            | succ j' =>
                have hj' : j' < rest.length := by simpa using hj
                have := hmax j' hj'
                simpa using this
          · intro j hj
            cases j with
            | zero =>
                have h5 : rolePriority e ≤ p := by omega
                have h4 : p < rolePriority (rest.get ⟨k, hk⟩) := hgt
                show rolePriority e < rolePriority (rest.get ⟨k, hk⟩)
                omega
            | succ j' =>
                have hj' : j' < k := by omega
                have := hbefore j' hj'
                simpa using this

/-- C5: role assignment scans workers in registration order, keeping the
review owner only on a strictly greater priority (starting from
`-Infinity`): the chosen review owner is the first worker attaining the
maximal priority (ties won by the earliest-registered worker), for every
nonempty active set with distinct ids exactly one role entry carries
`isReviewAgent = true`, a `reviewPreferred = true` worker with priority 5
displaces a `reviewPreferred = false` worker with priority 0, and two
identical non-preferred workers leave the first as review owner. -/
theorem claim_C5_assign_roles (activeAgents : List Agent)
    (hne : activeAgents ≠ [])
    (hnodup : (activeAgents.map Agent.id).Nodup) :
    (∃ k, ∃ hk : k < activeAgents.length,
      (assignRoles activeAgents).2 = some activeAgents[k].id ∧
      (∀ j, (hj : j < activeAgents.length) →
        rolePriority (mkRoleEntry activeAgents[j]) ≤
          rolePriority (mkRoleEntry activeAgents[k])) ∧
      (∀ j, j < k → ∀ hj : j < activeAgents.length,
        rolePriority (mkRoleEntry activeAgents[j]) <
          rolePriority (mkRoleEntry activeAgents[k]))) ∧
      (assignRoles activeAgents).1.countP (fun entry => entry.isReviewAgent) = 1 ∧
      (assignRoles [Agent.mk "w1" "W1" true (RoleProfile.mk "" "" false (some 0)),
          Agent.mk "w2" "W2" true (RoleProfile.mk "" "" true (some 5))]).2
        = some "w2" ∧
      (assignRoles [Agent.mk "w1" "W1" true (RoleProfile.mk "" "" false (some 0)),
          Agent.mk "w2" "W2" true (RoleProfile.mk "" "" false (some 0))]).2
        = some "w1" := by
  cases activeAgents with
  | nil => exact absurd rfl hne
  | cons a rest =>
      have hfold : ((a :: rest).map mkRoleEntry).foldl pickStep (none, none)
          = (some ((rest.map mkRoleEntry).foldl pickAcc
                ((mkRoleEntry a).id, rolePriority (mkRoleEntry a))).1,
             some ((rest.map mkRoleEntry).foldl pickAcc
                ((mkRoleEntry a).id, rolePriority (mkRoleEntry a))).2) := by
        rw [List.map_cons, List.foldl_cons]
        exact foldl_pickStep_some (rest.map mkRoleEntry) (mkRoleEntry a).id
          (rolePriority (mkRoleEntry a))
      have hsnd : (assignRoles (a :: rest)).2 =
          some ((rest.map mkRoleEntry).foldl pickAcc
            ((mkRoleEntry a).id, rolePriority (mkRoleEntry a))).1 := by
        simp only [assignRoles, hfold]
      have hfst : (assignRoles (a :: rest)).1 =
          ((a :: rest).map mkRoleEntry).map (fun entry =>
            { entry with isReviewAgent := (some entry.id ==
                some ((rest.map mkRoleEntry).foldl pickAcc
                  ((mkRoleEntry a).id, rolePriority (mkRoleEntry a))).1) }) := by
        simp only [assignRoles, hfold]
      have hmain : ∃ k, ∃ hk : k < (a :: rest).length,
          (assignRoles (a :: rest)).2 = some (a :: rest)[k].id ∧
          (∀ j, (hj : j < (a :: rest).length) →
            rolePriority (mkRoleEntry (a :: rest)[j]) ≤
              rolePriority (mkRoleEntry (a :: rest)[k])) ∧
          (∀ j, j < k → ∀ hj : j < (a :: rest).length,
            rolePriority (mkRoleEntry (a :: rest)[j]) <
              rolePriority (mkRoleEntry (a :: rest)[k])) := by
        rcases foldl_pickAcc_char (rest.map mkRoleEntry) (mkRoleEntry a).id
            (rolePriority (mkRoleEntry a)) with
          ⟨h1, _, hall⟩ | ⟨k1, hk1, h1, _, hgt, hmax, hbefore⟩
        · refine ⟨0, by simp, ?_, ?_, ?_⟩
          · rw [hsnd, h1]
            rfl
          · intro j hj
            cases j with
            | zero => exact le_refl _
            | succ j1 =>
                have hj1 : j1 < rest.length := by simpa using hj
                have hm := hall ((rest.map mkRoleEntry).get ⟨j1, by simpa using hj1⟩)
                  (List.get_mem _ _ _)
                simp only [List.get_eq_getElem, List.getElem_map] at hm
                simpa using hm
          · intro j hj
            omega
        · refine ⟨k1 + 1, by simpa using Nat.succ_lt_succ hk1, ?_, ?_, ?_⟩
          · rw [hsnd, h1]
            simp only [List.get_eq_getElem, List.getElem_map, List.getElem_cons_succ]
            rfl
          · intro j hj
            cases j with
            | zero =>
                have := le_of_lt hgt
                simp only [List.get_eq_getElem, List.getElem_map] at this
                simpa using this
            | succ j1 =>
                have hj1 : j1 < rest.length := by simpa using hj
                have hm := hmax j1 (by simpa using hj1)
                simp only [List.get_eq_getElem, List.getElem_map] at hm
                simpa using hm
          · intro j hj hj2
            cases j with
            | zero =>
                have := hgt
                simp only [List.get_eq_getElem, List.getElem_map] at this
                simpa using this
            | succ j1 =>
                have hj1 : j1 < k1 := by omega
                have hm := hbefore j1 hj1
                simp only [List.get_eq_getElem, List.getElem_map] at hm
                simpa using hm
      refine ⟨hmain, ?_, by decide, by decide⟩
      obtain ⟨k, hk, hrid, _, _⟩ := hmain
      have hchosen : ((rest.map mkRoleEntry).foldl pickAcc
          ((mkRoleEntry a).id, rolePriority (mkRoleEntry a))).1 = (a :: rest)[k].id :=
        Option.some.inj (hsnd.symm.trans hrid)
      rw [hfst, hchosen, List.countP_map, List.countP_map]
      have hcongr : ((a :: rest).countP
            ((((fun entry => entry.isReviewAgent) ∘ fun entry =>
              { entry with isReviewAgent := some entry.id == some (a :: rest)[k].id })
                ∘ mkRoleEntry)))
          = (a :: rest).countP (fun x => x.id == (a :: rest)[k].id) := by
        apply List.countP_congr
        intro x _
        rfl
      rw [hcongr]
      have hcount : ((a :: rest).map Agent.id).count (a :: rest)[k].id
          = (a :: rest).countP (fun x => x.id == (a :: rest)[k].id) := by
        rw [List.count_eq_countP, List.countP_map]
        rfl
      rw [← hcount]
      exact List.count_eq_one_of_mem hnodup
        (List.mem_map_of_mem Agent.id (List.getElem_mem hk))
/-- C5 witness: the role-assignment characterization applied to the
two-worker roster `[wAlpha, wBravo]` (distinct ids, nonempty). -/
theorem claim_C5_assign_roles_witness :
    (([wAlpha, wBravo] : List Agent) ≠ [] ∧
      (([wAlpha, wBravo] : List Agent).map Agent.id).Nodup) ∧
      ((∃ k, ∃ hk : k < ([wAlpha, wBravo] : List Agent).length,
        (assignRoles [wAlpha, wBravo]).2 = some ([wAlpha, wBravo] : List Agent)[k].id ∧
        (∀ j, (hj : j < ([wAlpha, wBravo] : List Agent).length) →
          rolePriority (mkRoleEntry ([wAlpha, wBravo] : List Agent)[j]) ≤
            rolePriority (mkRoleEntry ([wAlpha, wBravo] : List Agent)[k])) ∧
        (∀ j, j < k → ∀ hj : j < ([wAlpha, wBravo] : List Agent).length,
          rolePriority (mkRoleEntry ([wAlpha, wBravo] : List Agent)[j]) <
            rolePriority (mkRoleEntry ([wAlpha, wBravo] : List Agent)[k]))) ∧
        (assignRoles [wAlpha, wBravo]).1.countP (fun entry => entry.isReviewAgent) = 1 ∧
        (assignRoles [Agent.mk "w1" "W1" true (RoleProfile.mk "" "" false (some 0)),
            Agent.mk "w2" "W2" true (RoleProfile.mk "" "" true (some 5))]).2
          = some "w2" ∧
        (assignRoles [Agent.mk "w1" "W1" true (RoleProfile.mk "" "" false (some 0)),
            Agent.mk "w2" "W2" true (RoleProfile.mk "" "" false (some 0))]).2
          = some "w1") :=
  ⟨⟨by decide, by decide⟩, claim_C5_assign_roles [wAlpha, wBravo] (by decide) (by decide)⟩

/-! ## Claim C6: variant workspace disjointness -/

/-- C6 counterexample: the worker names `"A"` and `"a"` are distinct
strings, yet `sanitiseForPath` lower-cases them to the same slug, so
`buildAgentFolderName` produces the same subdirectory name for both — for
any task — and the two workers would share a directory.  This refutes the
claim for arbitrary pairwise-distinct worker names. -/
theorem claim_C6_counterexample :
    ("A" : String) ≠ "a" ∧
      buildAgentFolderName "A" (deriveVariantProjectSlug "Build a web app")
        = buildAgentFolderName "a" (deriveVariantProjectSlug "Build a web app") := by
  exact ⟨by decide, rfl⟩

/-- C6 amended: for every task string, workers whose SANITISED name slugs
are pairwise distinct (true of the registry's fixed worker names) receive
pairwise-distinct subdirectory names — the name slug is prepended to the
shared project slug, and appending the same suffix is injective.  Distinct
raw names alone do not suffice (see the counterexample: sanitisation can
collapse distinct names to one slug). -/
theorem claim_C6_amended (name1 name2 userPrompt : String)
    (hslug : sanitiseForPath name1 "agent" ≠ sanitiseForPath name2 "agent") :
    buildAgentFolderName name1 (deriveVariantProjectSlug userPrompt) ≠
      buildAgentFolderName name2 (deriveVariantProjectSlug userPrompt) := by
  intro h
  apply hslug
  rw [buildAgentFolderName, buildAgentFolderName] at h
  have hdata := congrArg String.data h
  rw [String.data_append, String.data_append, String.data_append,
    String.data_append] at hdata
  have h1 := List.append_cancel_right hdata
  have h2 := List.append_cancel_right h1
  exact String.ext h2

/-- C6 amended, witness: the registry worker names `Claude Code` and
`Gemini CLI` have distinct slugs, so their variant folders differ for a
concrete task. -/
theorem claim_C6_amended_witness :
    sanitiseForPath "Claude Code" "agent" ≠ sanitiseForPath "Gemini CLI" "agent" ∧
      buildAgentFolderName "Claude Code" (deriveVariantProjectSlug "Build a web app") ≠
        buildAgentFolderName "Gemini CLI" (deriveVariantProjectSlug "Build a web app") :=
  ⟨by decide,
   claim_C6_amended "Claude Code" "Gemini CLI" "Build a web app" (by decide)⟩

/-! ## Claim C8: assignment merging -/

theorem appendRoleAndReview_prefix (roles : List (String × RoleEntry))
    (reviewAgentId : Option String) (reviewLabel agentId text1 : String) :
    ∃ t, appendRoleAndReview roles reviewAgentId reviewLabel agentId text1
      = text1 ++ t := by
  have hstep : ∀ x s : String, (∃ t, x = text1 ++ t) → ∃ t, x ++ s = text1 ++ t := by
    rintro x s ⟨t, rfl⟩
    exact ⟨t ++ s, by rw [String.append_assoc]⟩
  have hself : ∃ t, text1 = text1 ++ t := ⟨"", by simp⟩
  simp only [appendRoleAndReview]
  have h2 : ∃ t, (if (roleFieldPrimary roles agentId != ""
        && !(containsSub text1 "Role Focus")) = true then
      text1 ++ "\n\nRole Focus: " ++ roleFieldPrimary roles agentId ++ "."
    else text1) = text1 ++ t := by
    by_cases hc : (roleFieldPrimary roles agentId != ""
        && !(containsSub text1 "Role Focus")) = true
    · rw [if_pos hc]
      exact hstep _ _ (hstep _ _ (hstep _ _ hself))
    · rw [if_neg hc]
      exact hself
  obtain ⟨t2, ht2⟩ := h2
  rw [ht2]
  have h3 : ∃ t, (if (roleFieldSecondary roles agentId != ""
        && !(containsSub (text1 ++ t2) "Secondary Focus")) = true then
      text1 ++ t2 ++ "\nSecondary Focus: " ++ roleFieldSecondary roles agentId ++ "."
    else text1 ++ t2) = text1 ++ t := by
    by_cases hc : (roleFieldSecondary roles agentId != ""
        && !(containsSub (text1 ++ t2) "Secondary Focus")) = true
    · rw [if_pos hc]
      exact hstep _ _ (hstep _ _ (hstep _ _ ⟨t2, rfl⟩))
    · rw [if_neg hc]
      exact ⟨t2, rfl⟩
  obtain ⟨t3, ht3⟩ := h3
  rw [ht3]
  by_cases hrev : roleFieldIsReview roles agentId = true
  · rw [if_pos hrev]
    exact hstep _ _ ⟨t3, rfl⟩
  · rw [if_neg hrev]
    by_cases hcp : (jsTruthyOpt reviewAgentId
        && (reviewAgentId.getD "" != agentId)) = true
    · rw [if_pos hcp]
      exact hstep _ _ ⟨t3, rfl⟩
    · rw [if_neg hcp]
      exact ⟨t3, rfl⟩

set_option maxRecDepth 8192 in
/-- C8 counterexample: a worker whose negotiation call failed carries the
`Allocation failed: <message>` fallback allocation (as produced by
`runNegotiation`); `buildAssignments` only synthesizes a default when the
text matches `/No allocation provided/i`, so this worker keeps the failure
text as its assignment base and never receives the synthesized
`Primary objectives:` default the claim promises. -/
theorem claim_C8_counterexample :
    (expectedAllocationEntry (fun _ => Except.error "boom") wBravo).allocation
        = "Allocation failed: boom" ∧
      noAllocRegexTest "Allocation failed: boom" = false ∧
      containsSub
        (buildAssignmentFor
          [("bravo", RoleEntry.mk "bravo" "Bravo" "Backend" "" false 0 false)]
          (some "claude") "Claude Code (claude)" "bravo" "Allocation failed: boom")
        "Primary objectives" = false ∧
      buildAssignmentFor
          [("bravo", RoleEntry.mk "bravo" "Bravo" "Backend" "" false 0 false)]
          (some "claude") "Claude Code (claude)" "bravo" "Allocation failed: boom"
        = "Allocation failed: boom" ++ "\n\nRole Focus: " ++ "Backend" ++ "."
            ++ completionProtocolText "claude" "Claude Code (claude)" := by
  refine ⟨rfl, by decide, by decide, by decide⟩

/-- C8 amended: in the assignment-merging step, a worker receives the
synthesized default assignment (role-profile focus lines) exactly when its
allocation text is empty/blank — i.e. when the base degenerates to the
`No allocation provided.` placeholder; a worker whose negotiation failed
keeps its nonempty `Allocation failed: ...` fallback text as the base.  A
review-owner reference is appended: review-responsibility instructions for
the review agent, and completion-protocol instructions for every other
worker when a (truthy) review agent id other than the worker exists. -/
theorem claim_C8_amended (roles : List (String × RoleEntry))
    (reviewAgentId : Option String) (reviewLabel agentId allocation : String) :
    (jsTrim allocation = "" →
      ∃ t, buildAssignmentFor roles reviewAgentId reviewLabel agentId allocation
        = synthesizedAssignment (roleFieldPrimary roles agentId)
            (roleFieldSecondary roles agentId) ++ t) ∧
      (jsTrim allocation ≠ "" → noAllocRegexTest (jsTrim allocation) = false →
        ∃ t, buildAssignmentFor roles reviewAgentId reviewLabel agentId allocation
          = jsTrim allocation ++ t) ∧
      (roleFieldIsReview roles agentId = true →
        ∃ t, buildAssignmentFor roles reviewAgentId reviewLabel agentId allocation
          = t ++ reviewResponsibilitiesText) ∧
      (roleFieldIsReview roles agentId = false →
        ∀ rid, reviewAgentId = some rid → rid ≠ "" → rid ≠ agentId →
          ∃ t, buildAssignmentFor roles reviewAgentId reviewLabel agentId allocation
            = t ++ completionProtocolText rid reviewLabel) := by
  refine ⟨?_, ?_, ?_, ?_⟩
  · intro hv
    have h0 : buildAssignmentBase allocation = "No allocation provided." := by
      rw [buildAssignmentBase]
      simp [hv]
    have hreg : (("No allocation provided." : String) == ""
        || noAllocRegexTest "No allocation provided.") = true := by decide
    simp only [buildAssignmentFor, h0, hreg, if_true]
    exact appendRoleAndReview_prefix roles reviewAgentId reviewLabel agentId _
  · intro hv hreg
    have h0 : buildAssignmentBase allocation = jsTrim allocation := by
      rw [buildAssignmentBase]
      simp [hv]
    have hcond : ((jsTrim allocation == "")
        || noAllocRegexTest (jsTrim allocation)) = false := by
      simp [hv, hreg]
    simp only [buildAssignmentFor, h0, hcond, Bool.false_eq_true, if_false]
    exact appendRoleAndReview_prefix roles reviewAgentId reviewLabel agentId _
  · intro hrev
    simp only [buildAssignmentFor, appendRoleAndReview, hrev, if_true]
    exact ⟨_, rfl⟩
  · intro hrev rid hrid hne hneq
    simp only [buildAssignmentFor, appendRoleAndReview, hrev, Bool.false_eq_true,
      if_false, hrid, Option.getD_some]
    have htruthy : (jsTruthyOpt (some rid) && (rid != agentId)) = true := by
      simp [jsTruthyOpt, hne, hneq]
    simp only [htruthy, if_true]
    exact ⟨_, rfl⟩

/-- C8 amended, witness: a blank allocation gets the synthesized default; a
review-agent role gets the review-responsibility appendix; the hypotheses
are checked on concrete inputs. -/
theorem claim_C8_amended_witness :
    (jsTrim "   " = "" ∧
      roleFieldIsReview
        [("claude", RoleEntry.mk "claude" "Claude Code" "Frontend" "" true 1 true)]
        "claude" = true) ∧
      ((∃ t, buildAssignmentFor
          [("claude", RoleEntry.mk "claude" "Claude Code" "Frontend" "" true 1 true)]
          (some "claude") "Claude Code (claude)" "claude" "   "
        = synthesizedAssignment
            (roleFieldPrimary
              [("claude", RoleEntry.mk "claude" "Claude Code" "Frontend" "" true 1 true)]
              "claude")
            (roleFieldSecondary
              [("claude", RoleEntry.mk "claude" "Claude Code" "Frontend" "" true 1 true)]
              "claude") ++ t) ∧
        (∃ t, buildAssignmentFor
          [("claude", RoleEntry.mk "claude" "Claude Code" "Frontend" "" true 1 true)]
          (some "claude") "Claude Code (claude)" "claude" "   "
        = t ++ reviewResponsibilitiesText)) :=
  ⟨⟨by decide, by decide⟩,
   ⟨(claim_C8_amended
      [("claude", RoleEntry.mk "claude" "Claude Code" "Frontend" "" true 1 true)]
      (some "claude") "Claude Code (claude)" "claude" "   ").1 (by decide),
    (claim_C8_amended
      [("claude", RoleEntry.mk "claude" "Claude Code" "Frontend" "" true 1 true)]
      (some "claude") "Claude Code (claude)" "claude" "   ").2.2.1 (by decide)⟩⟩

end WorkTogether
